import Mathlib

/-!
Verification of the portfolio-tracker valuation and mutation logic.

The definitions below are a shallow embedding of the Python source:
real numbers are modelled by `ℚ`, timestamps by `Nat`, and the
external price sources by explicit outcome parameters (`Option ℚ`,
boolean success flags).  Each definition mirrors one function of
`portfolio_tracker.py` or `services/robinhood_port.py`.
-/

namespace PortfolioTracker

/-- A crypto holding record, as stored in `portfolio["crypto"]["holdings"]`. -/
structure CryptoHolding where
  symbol : String
  name : String
  quantity : ℚ
  average_cost : ℚ
  current_price : ℚ
  last_updated : Nat
deriving DecidableEq, Repr

/-- A hard-asset record, as stored in `portfolio["hard_assets"]`
(either the `precious_metals` or the `other` sequence). -/
structure HardAsset where
  name : String
  type : String
  unit : String
  quantity : ℚ
  average_cost : ℚ
  current_spot_price : ℚ
  last_updated : Nat
deriving DecidableEq, Repr

/-- The cash section of the ledger. -/
structure Cash where
  balance : ℚ
  currency : String
deriving DecidableEq, Repr

/-- The persisted ledger document. -/
structure Portfolio where
  crypto : List CryptoHolding
  precious_metals : List HardAsset
  other : List HardAsset
  cash : Cash
deriving DecidableEq, Repr

/-- The ledger default returned by `load_portfolio` when no file exists. -/
def emptyPortfolio : Portfolio :=
  { crypto := [], precious_metals := [], other := [], cash := { balance := 0, currency := "USD" } }

/-- Grams per troy ounce, the constant `31.1034768` of the source. -/
def gramsPerTroyOunce : ℚ := 311034768 / 10000000

/-- Model of the Python `str.lower()` method (character-wise lowercase). -/
def lowerStr (s : String) : String := String.mk (s.data.map Char.toLower)

/-- Model of the Python `str.strip()` method (drop surrounding whitespace). -/
def stripStr (s : String) : String :=
  String.mk (((s.data.dropWhile Char.isWhitespace).reverse.dropWhile Char.isWhitespace).reverse)

/-- Embedding of `convert_to_ounces(quantity, unit)`:
gram spellings divide by `31.1034768`, everything else is identity. -/
def convert_to_ounces (quantity : ℚ) (unit : String) : ℚ :=
  if lowerStr unit ∈ ["g", "gram", "grams"] then quantity / gramsPerTroyOunce
  else quantity

/-- Crypto subtotal of `show`: sum of `quantity * current_price`. -/
def crypto_value (p : Portfolio) : ℚ :=
  (p.crypto.map (fun h => h.quantity * h.current_price)).sum

/-- Precious-metal subtotal of `show`:
sum of `convert_to_ounces(quantity, unit) * current_spot_price`. -/
def metals_value (p : Portfolio) : ℚ :=
  (p.precious_metals.map (fun a => convert_to_ounces a.quantity a.unit * a.current_spot_price)).sum

/-- Other-hard-asset subtotal of `show`: sum of `quantity * current_spot_price`,
with no unit conversion. -/
def other_value (p : Portfolio) : ℚ :=
  (p.other.map (fun a => a.quantity * a.current_spot_price)).sum

/-- Hard-assets subtotal of `show`. -/
def hard_assets_value (p : Portfolio) : ℚ :=
  metals_value p + other_value p

/-- Cash subtotal of `show`. -/
def cash_value (p : Portfolio) : ℚ := p.cash.balance

/-- Grand total of `show`: `crypto_value + hard_assets_value + rh_total + cash_value`. -/
def total_value (p : Portfolio) (rh_total : ℚ) : ℚ :=
  crypto_value p + hard_assets_value p + rh_total + cash_value p

/-- One row of the portfolio summary table built by `show`
(label, holdings count, category value). -/
structure AllocationRow where
  label : String
  count : Nat
  value : ℚ
deriving DecidableEq, Repr

/-- The `rows` list built by `show` before sorting: one row per category
whose value is strictly positive, in the fixed source order
Robinhood, Cash, Cryptocurrency, Hard Assets. -/
def summaryRows (p : Portfolio) (rhPositions : Nat) (rh_total : ℚ) : List AllocationRow :=
  (if rh_total > 0 then [⟨"Robinhood", rhPositions, rh_total⟩] else []) ++
  (if cash_value p > 0 then [⟨"Cash", 1, cash_value p⟩] else []) ++
  (if crypto_value p > 0 then [⟨"Cryptocurrency", p.crypto.length, crypto_value p⟩] else []) ++
  (if hard_assets_value p > 0 then
    [⟨"Hard Assets", p.precious_metals.length + p.other.length, hard_assets_value p⟩] else [])

/-- The `rows.sort(key=..., reverse=True)` step of `show`: a stable sort
by allocation fraction, descending. -/
def sortedSummaryRows (p : Portfolio) (rhPositions : Nat) (rh_total : ℚ) : List AllocationRow :=
  (summaryRows p rhPositions rh_total).mergeSort
    (fun a b => decide (b.value / total_value p rh_total ≤ a.value / total_value p rh_total))

/-- The category breakdown that `show` renders: the sorted rows when the
grand total is strictly positive, and nothing otherwise (the `else`
branch prints the empty-portfolio message and builds no rows). -/
def breakdown (p : Portfolio) (rhPositions : Nat) (rh_total : ℚ) : List AllocationRow :=
  if total_value p rh_total > 0 then sortedSummaryRows p rhPositions rh_total else []

/-- The allocation fraction `value/total_value` that `show` renders
(as `(value/total_value)*100`, to one decimal place) for each row. -/
def allocationFractions (p : Portfolio) (rhPositions : Nat) (rh_total : ℚ) : List ℚ :=
  (breakdown p rhPositions rh_total).map (fun r => r.value / total_value p rh_total)

/-- A reachable ledger with a negative cash balance (`cash update --subtract`
enforces no floor) and one crypto holding. -/
def negCashPortfolio : Portfolio :=
  { crypto := [{ symbol := "bitcoin", name := "Bitcoin", quantity := 1, average_cost := 0,
                 current_price := 1100, last_updated := 0 }],
    precious_metals := [], other := [],
    cash := { balance := -100, currency := "USD" } }

/-- The ledger of Scenario B of the spec: 2 bitcoin at 50000 plus cash 1000. -/
def scenarioBPortfolio : Portfolio :=
  { crypto := [{ symbol := "bitcoin", name := "Bitcoin", quantity := 2, average_cost := 0,
                 current_price := 50000, last_updated := 0 }],
    precious_metals := [], other := [],
    cash := { balance := 1000, currency := "USD" } }

/-- The message path taken by `crypto_adjust` (which `console.print` branch
ends the command). -/
inductive AdjustResult where
  | noHoldings
  | notFound
  | invalidSelection
  | conflict
  | negative
  | ok
deriving DecidableEq, Repr

/-- The operation chosen at the interactive prompt of `crypto_adjust`
when none of the three options is supplied. -/
inductive AdjustOp where
  | set
  | add
  | subtract
deriving DecidableEq, Repr

/-- Result of running `crypto_adjust`: the (possibly updated) ledger,
whether `save_portfolio` was called, and the message path taken. -/
structure AdjustOutcome where
  portfolio : Portfolio
  saved : Bool
  result : AdjustResult
deriving DecidableEq, Repr

/-- Resolution of the target holding in `crypto_adjust`: case-insensitive
match of the stripped symbol option against each holding symbol or name
when `--symbol` is given, else a 1-based prompt selection checked against
the list bounds. -/
def resolveIdx (holdings : List CryptoHolding) (symbol : Option String)
    (promptChoice : Int) : Except AdjustResult Nat :=
  match symbol with
  | some sym =>
    let s := lowerStr (stripStr sym)
    match holdings.findIdx? (fun h => lowerStr h.symbol = s || lowerStr h.name = s) with
    | some i => Except.ok i
    | none => Except.error AdjustResult.notFound
  | none =>
    let choice := promptChoice - 1
    if 0 ≤ choice ∧ choice < holdings.length then Except.ok choice.toNat
    else Except.error AdjustResult.invalidSelection

/-- The number of `--set` / `--add` / `--subtract` options supplied
(`sum(ops)` in the source). -/
def opsCount (set_qty add_qty sub_qty : Option ℚ) : Nat :=
  (if set_qty.isSome then 1 else 0) + (if add_qty.isSome then 1 else 0) +
    (if sub_qty.isSome then 1 else 0)

/-- The new quantity computed by `crypto_adjust`: the
`--set` / `--add` / `--subtract` chain when a flag is supplied, else the
interactively prompted operation and amount. -/
def computeNewQty (current : ℚ) (set_qty add_qty sub_qty : Option ℚ)
    (promptOp : AdjustOp) (promptAmount : ℚ) : ℚ :=
  match set_qty, add_qty, sub_qty with
  | some v, _, _ => v
  | none, some v, _ => current + v
  | none, none, some v => current - v
  | none, none, none =>
    match promptOp with
    | AdjustOp.set => promptAmount
    | AdjustOp.add => current + promptAmount
    | AdjustOp.subtract => current - promptAmount

/-- The in-place mutation of the successful `crypto_adjust` branch:
`holding["quantity"] = new_qty; holding["last_updated"] = now`. -/
def updatedHolding (holding : CryptoHolding) (new_qty : ℚ) (now : Nat) : CryptoHolding :=
  { holding with quantity := new_qty, last_updated := now }

/-- The ledger after the successful `crypto_adjust` branch: the resolved
holding replaced in place, everything else untouched. -/
def adjustedPortfolio (p : Portfolio) (idx : Nat) (holding : CryptoHolding)
    (new_qty : ℚ) (now : Nat) : Portfolio :=
  { p with crypto := p.crypto.set idx (updatedHolding holding new_qty now) }

/-- Embedding of the `crypto adjust` command.  The early returns of the
source become the failure outcomes; only the final branch mutates the
holding and saves the ledger.  The `none` case of the index lookup is
unreachable (the resolved index is always in bounds). -/
def crypto_adjust (p : Portfolio) (symbol : Option String)
    (set_qty add_qty sub_qty : Option ℚ) (promptChoice : Int)
    (promptOp : AdjustOp) (promptAmount : ℚ) (now : Nat) : AdjustOutcome :=
  if p.crypto.isEmpty then ⟨p, false, AdjustResult.noHoldings⟩
  else
    match resolveIdx p.crypto symbol promptChoice with
    | Except.error e => ⟨p, false, e⟩
    | Except.ok idx =>
      match p.crypto[idx]? with
      | none => ⟨p, false, AdjustResult.notFound⟩
      | some holding =>
        if opsCount set_qty add_qty sub_qty > 1 then ⟨p, false, AdjustResult.conflict⟩
        else
          let new_qty :=
            computeNewQty holding.quantity set_qty add_qty sub_qty promptOp promptAmount
          if new_qty < 0 then ⟨p, false, AdjustResult.negative⟩
          else ⟨adjustedPortfolio p idx holding new_qty now, true, AdjustResult.ok⟩

/-- A one-holding ledger used to exercise `crypto_adjust` concretely. -/
def demoHolding : CryptoHolding :=
  { symbol := "bitcoin", name := "Bitcoin", quantity := 1, average_cost := 0,
    current_price := 100, last_updated := 0 }

/-- A ledger holding exactly `demoHolding`. -/
def adjustDemoPortfolio : Portfolio :=
  { crypto := [demoHolding], precious_metals := [], other := [],
    cash := { balance := 0, currency := "USD" } }

/-- Embedding of the `crypto add` command after the external lookups:
`searchResult` is the outcome of `search_crypto_id` (no ledger change when
it fails) and `priceResult` the outcome of `get_crypto_price` (price
defaults to 0 when it fails); the new holding is appended. -/
def crypto_add (p : Portfolio) (searchResult : Option (String × String))
    (quantity avg_cost : ℚ) (priceResult : Option ℚ) (now : Nat) : Portfolio :=
  match searchResult with
  | none => p
  | some (cid, cname) =>
    { p with crypto := p.crypto ++
        [{ symbol := cid, name := cname, quantity := quantity, average_cost := avg_cost,
           current_price := priceResult.getD 0, last_updated := now }] }

/-- Embedding of the `crypto remove` command: 1-based selection, pop at a
valid index, no change otherwise. -/
def crypto_remove (p : Portfolio) (promptChoice : Int) : Portfolio :=
  if p.crypto.isEmpty then p
  else
    let choice := promptChoice - 1
    if 0 ≤ choice ∧ choice < p.crypto.length then
      { p with crypto := p.crypto.eraseIdx choice.toNat }
    else p

/-- One user-level mutation of the crypto category. -/
inductive CryptoEvent where
  | addEvent (searchResult : Option (String × String)) (quantity avg_cost : ℚ)
      (priceResult : Option ℚ) (now : Nat)
  | removeEvent (promptChoice : Int)
  | adjustEvent (symbol : Option String) (set_qty add_qty sub_qty : Option ℚ)
      (promptChoice : Int) (promptOp : AdjustOp) (promptAmount : ℚ) (now : Nat)

/-- Apply one crypto mutation to the ledger. -/
def applyEvent (p : Portfolio) : CryptoEvent → Portfolio
  | CryptoEvent.addEvent sr q ac pr now => crypto_add p sr q ac pr now
  | CryptoEvent.removeEvent c => crypto_remove p c
  | CryptoEvent.adjustEvent s sq aq bq pc po pa now =>
    (crypto_adjust p s sq aq bq pc po pa now).portfolio

/-- Apply a sequence of crypto mutations, left to right. -/
def applyEvents (p : Portfolio) (evs : List CryptoEvent) : Portfolio :=
  evs.foldl applyEvent p

/-- The identifiers resolved by the successful add events of a sequence. -/
def addedSymbols : List CryptoEvent → List String
  | [] => []
  | CryptoEvent.addEvent (some (cid, _)) _ _ _ _ :: evs => cid :: addedSymbols evs
  | _ :: evs => addedSymbols evs

/-- The identifiers currently stored in the crypto category. -/
def cryptoSymbols (p : Portfolio) : List String :=
  p.crypto.map (fun h => h.symbol)

/-- Two add events that resolve to the same identifier. -/
def dupAddEvents : List CryptoEvent :=
  [CryptoEvent.addEvent (some ("bitcoin", "Bitcoin")) 1 0 none 0,
   CryptoEvent.addEvent (some ("bitcoin", "Bitcoin")) 2 0 (some 100) 1]

/-- Two add events with distinct resolved identifiers. -/
def distinctAddEvents : List CryptoEvent :=
  [CryptoEvent.addEvent (some ("bitcoin", "Bitcoin")) 1 0 none 0,
   CryptoEvent.addEvent (some ("ethereum", "Ethereum")) 2 0 (some 100) 1]

/-- The fixed precious-metal tag set of the source. -/
def metalTypes : List String := ["gold", "silver", "platinum", "palladium"]

/-- Python truthiness of the metals fetch outcome (`if new_price:`):
`None` and `0.0` are both falsy. -/
def truthyPrice : Option ℚ → Bool
  | none => false
  | some q => if q = 0 then false else true

/-- One iteration of the `assets update` loop over the precious-metal
sequence: a metal-tagged asset whose fetched price is truthy gets the new
price and a refreshed timestamp and counts as updated; any other asset is
returned unchanged and uncounted. -/
def updateMetal (fetch : String → Option ℚ) (now : Nat) (asset : HardAsset) :
    HardAsset × Nat :=
  if asset.type ∈ metalTypes then
    match fetch asset.type with
    | some new_price =>
      if new_price = 0 then (asset, 0)
      else ({ asset with current_spot_price := new_price, last_updated := now }, 1)
    | none => (asset, 0)
  else (asset, 0)

/-- Outcome of the `assets update` command. -/
structure UpdateOutcome where
  portfolio : Portfolio
  updated_count : Nat
  saved : Bool
deriving DecidableEq, Repr

/-- Embedding of the `assets update` command: return early when there are no
hard assets at all, else iterate only the precious-metal sequence (the
"other" sequence is never touched), count successful updates and save. -/
def assets_update (p : Portfolio) (fetch : String → Option ℚ) (now : Nat) :
    UpdateOutcome :=
  if (p.precious_metals ++ p.other).isEmpty then ⟨p, 0, false⟩
  else
    let results := p.precious_metals.map (updateMetal fetch now)
    ⟨{ p with precious_metals := results.map Prod.fst },
      (results.map Prod.snd).sum, true⟩

/-- A gold holding used to exercise the metals update pass. -/
def goldAsset : HardAsset :=
  { name := "Gold", type := "gold", unit := "oz", quantity := 10, average_cost := 0,
    current_spot_price := 1900, last_updated := 3 }

/-- A ledger holding exactly `goldAsset`. -/
def goldPortfolio : Portfolio :=
  { crypto := [], precious_metals := [goldAsset], other := [],
    cash := { balance := 0, currency := "USD" } }

/-- Per-holding value shown in the detailed crypto table of `show_detailed`. -/
def cryptoHoldingValue (h : CryptoHolding) : ℚ := h.quantity * h.current_price

/-- Cost basis of a crypto holding in `show_detailed`. -/
def cryptoCostBasis (h : CryptoHolding) : ℚ := h.quantity * h.average_cost

/-- The P&L cell of the detailed crypto table: a numeric value exactly when
the cost basis is strictly positive, the "N/A" text otherwise. -/
def cryptoPnl (h : CryptoHolding) : Option ℚ :=
  if cryptoCostBasis h > 0 then some (cryptoHoldingValue h - cryptoCostBasis h) else none

/-- Per-asset value shown in the detailed hard-assets table of
`show_detailed`: the ounce conversion is applied to every hard asset,
including the "other" category. -/
def assetDetailedValue (a : HardAsset) : ℚ :=
  convert_to_ounces a.quantity a.unit * a.current_spot_price

/-- Cost basis of a hard asset in `show_detailed` (no unit conversion). -/
def assetCostBasis (a : HardAsset) : ℚ := a.quantity * a.average_cost

/-- The P&L cell of the detailed hard-assets table. -/
def assetPnl (a : HardAsset) : Option ℚ :=
  if assetCostBasis a > 0 then some (assetDetailedValue a - assetCostBasis a) else none

/-- The contribution of an "other" asset to the aggregate other-category
subtotal of `show` (no unit conversion). -/
def otherContribution (a : HardAsset) : ℚ := a.quantity * a.current_spot_price

/-- A crypto holding with recorded average cost but quantity zero. -/
def zeroQtyHolding : CryptoHolding :=
  { symbol := "bitcoin", name := "Bitcoin", quantity := 0, average_cost := 100,
    current_price := 50000, last_updated := 0 }

/-- An "other" hard asset denominated in grams (Scenario C numbers). -/
def copperAsset : HardAsset :=
  { name := "Copper", type := "copper", unit := "g", quantity := 10, average_cost := 0,
    current_spot_price := 2000, last_updated := 0 }

/-- A normalized equities position (symbol, quantity, price, equity). -/
structure RhPosition where
  symbol : String
  quantity : ℚ
  price : ℚ
  equity : ℚ
deriving DecidableEq, Repr

/-- The dict returned by `get_portfolio_data`, extended with effect flags
recording whether login and logout were attempted on the external session. -/
structure RhResult where
  positions : List RhPosition
  total_equity : ℚ
  error : Option String
  loginAttempted : Bool
  logoutAttempted : Bool
deriving DecidableEq, Repr

/-- The external world the equities adapter runs against: library
availability, environment credentials, whether login and the positions
fetch succeed, the raw positions (`none` marks an entry whose per-position
normalization raises and is skipped), and whether logout succeeds. -/
structure RhWorld where
  available : Bool
  envUsername : Option String
  envPassword : Option String
  envAccount : Option String
  loginOk : Bool
  fetchOk : Bool
  rawPositions : List (Option (String × ℚ × ℚ))
  logoutOk : Bool
deriving DecidableEq, Repr

/-- Python truthiness of a credential value (`None` and `""` are falsy). -/
def truthyCred : Option String → Bool
  | none => false
  | some s => if s = "" then false else true

/-- The env fallback of the adapter: `if not creds.get(k): creds[k] = env[k]`. -/
def mergeCred (c e : Option String) : Option String :=
  if truthyCred c then c else e

/-- Embedding of `get_portfolio_data`: the guard chain of the source, with
the `try/except` around `login` and `get_open_stock_positions` returning the
failure outcome directly (no logout on that path), and the `try/finally`
around the normalization loop always attempting logout.  The result never
depends on whether the logout itself succeeds (its failure is swallowed). -/
def get_portfolio_data (w : RhWorld)
    (cfgUsername cfgPassword cfgAccount : Option String) : RhResult :=
  if !w.available then ⟨[], 0, some "robin-stocks not installed", false, false⟩
  else
    let username := mergeCred cfgUsername w.envUsername
    let password := mergeCred cfgPassword w.envPassword
    let account := mergeCred cfgAccount w.envAccount
    if !(truthyCred username && truthyCred password && truthyCred account) then
      ⟨[], 0, some "missing_credentials", false, false⟩
    else if !w.loginOk then ⟨[], 0, some "login_or_fetch_failed", true, false⟩
    else if !w.fetchOk then ⟨[], 0, some "login_or_fetch_failed", true, false⟩
    else
      let normalized := w.rawPositions.filterMap
        (fun r => r.map (fun d => RhPosition.mk d.1 d.2.1 d.2.2 (d.2.1 * d.2.2)))
      ⟨normalized, (normalized.map (fun pos => pos.equity)).sum, none, true, true⟩

/-- A world where login succeeds but the positions fetch raises. -/
def fetchFailWorld : RhWorld :=
  { available := true, envUsername := some "u", envPassword := some "p",
    envAccount := some "a", loginOk := true, fetchOk := false, rawPositions := [],
    logoutOk := true }

/-- A world where login and fetch succeed, one raw position is malformed,
and the logout itself fails. -/
def okWorld : RhWorld :=
  { available := true, envUsername := some "u", envPassword := some "p",
    envAccount := some "a", loginOk := true, fetchOk := true,
    rawPositions := [none, some ("AAPL", 2, 100)], logoutOk := false }

end PortfolioTracker

namespace PortfolioTracker

/-- C5: `convert_to_ounces` divides by 31.1034768 exactly on the
lowercased gram spellings and is the identity on every other unit string. -/
theorem convert_to_ounces_spec (x : ℚ) (u : String) :
    (lowerStr u ∈ ["g", "gram", "grams"] → convert_to_ounces x u = x / (311034768 / 10000000)) ∧
    (lowerStr u ∉ ["g", "gram", "grams"] → convert_to_ounces x u = x) := by
  constructor
  · intro h
    simp [convert_to_ounces, gramsPerTroyOunce, h]
  · intro h
    simp [convert_to_ounces, h]

/-- Witness for C5 at `u = "G"` (gram spelling) evaluated concretely. -/
theorem convert_to_ounces_spec_witness :
    (lowerStr "G" ∈ ["g", "gram", "grams"]) ∧
      convert_to_ounces 31 "G" = 31 / (311034768 / 10000000) := by
  refine ⟨by decide, ?_⟩
  exact (convert_to_ounces_spec 31 "G").1 (by decide)

/-- C1: the grand total of the portfolio overview is the crypto subtotal,
plus the hard-assets subtotal (metal subtotal, with unit conversion, plus
other subtotal, without conversion), plus the cash balance, plus the
equities total. -/
theorem grand_total_law (p : Portfolio) (rh_total : ℚ) :
    total_value p rh_total =
      (p.crypto.map (fun h => h.quantity * h.current_price)).sum +
        ((p.precious_metals.map
            (fun a => convert_to_ounces a.quantity a.unit * a.current_spot_price)).sum +
          (p.other.map (fun a => a.quantity * a.current_spot_price)).sum) +
        p.cash.balance + rh_total := by
  simp [total_value, crypto_value, hard_assets_value, metals_value, other_value, cash_value]
  ring

/-- Summing `value / T` over rows equals the summed values divided by `T`. -/
theorem sum_map_div (l : List AllocationRow) (T : ℚ) :
    (l.map (fun r => r.value / T)).sum = (l.map (fun r => r.value)).sum / T := by
  induction l with
  | nil => simp
  | cons a t ih => simp [ih, add_div]

/-- C2 counterexample: with a negative cash balance (reachable, since cash
updates enforce no floor) the grand total is strictly positive, yet the
allocation fractions of the reported breakdown sum to 1.1, far outside the
1e-9 tolerance, because the negative cash category is silently omitted. -/
theorem allocation_law_counterexample :
    total_value negCashPortfolio 0 > 0 ∧
      ¬ |(allocationFractions negCashPortfolio 0 0).sum - 1| ≤ 1 / 1000000000 := by
  constructor
  · norm_num [total_value, crypto_value, hard_assets_value, metals_value, other_value,
      cash_value, negCashPortfolio]
  · norm_num [allocationFractions, breakdown, sortedSummaryRows, summaryRows, total_value,
      crypto_value, hard_assets_value, metals_value, other_value, cash_value, negCashPortfolio]
    rw [abs_of_pos (by norm_num : (0:ℚ) < 1 / 10)]
    norm_num

/-- C2 amended: when every category subtotal is non-negative, the reported
allocation fractions sum to exactly 1 whenever the grand total is positive;
the breakdown is empty when the grand total is 0; and every reported row has
a strictly positive subtotal (non-positive categories are omitted). -/
theorem allocation_law (p : Portfolio) (n : Nat) (rh_total : ℚ)
    (hrh : 0 ≤ rh_total) (hcash : 0 ≤ cash_value p)
    (hcrypto : 0 ≤ crypto_value p) (hhard : 0 ≤ hard_assets_value p) :
    (0 < total_value p rh_total → (allocationFractions p n rh_total).sum = 1) ∧
    (total_value p rh_total = 0 → breakdown p n rh_total = []) ∧
    (∀ r ∈ breakdown p n rh_total, 0 < r.value) := by
  refine ⟨?_, ?_, ?_⟩
  · intro ht
    have hperm : List.Perm (sortedSummaryRows p n rh_total) (summaryRows p n rh_total) :=
      List.mergeSort_perm _ _
    have hsum : ((sortedSummaryRows p n rh_total).map (fun r => r.value)).sum
        = ((summaryRows p n rh_total).map (fun r => r.value)).sum :=
      (hperm.map _).sum_eq
    have hvals : ((summaryRows p n rh_total).map (fun r => r.value)).sum
        = total_value p rh_total := by
      simp only [summaryRows]
      split_ifs <;>
        simp only [List.map_append, List.map_cons, List.map_nil, List.sum_append,
          List.sum_cons, List.sum_nil, total_value] <;>
      linarith
    rw [allocationFractions, breakdown, if_pos ht, sum_map_div, hsum, hvals,
      div_self (ne_of_gt ht)]
  · intro h0
    simp [breakdown, h0]
  · intro r hr
    rw [breakdown] at hr
    split at hr
    · rw [sortedSummaryRows, List.mem_mergeSort] at hr
      simp only [summaryRows, List.mem_append] at hr
      rcases hr with ((h | h) | h) | h <;> split_ifs at h <;> simp_all
    · simp at hr

/-- A resolved index is always within the bounds of the holdings list. -/
theorem resolveIdx_lt_length (holdings : List CryptoHolding) (symbol : Option String)
    (promptChoice : Int) (idx : Nat)
    (h : resolveIdx holdings symbol promptChoice = Except.ok idx) :
    idx < holdings.length := by
  rcases symbol with _ | sym
  · rw [resolveIdx] at h
    split at h
    · rename_i hc
      have : (promptChoice - 1).toNat = idx := by
        simpa using congrArg (fun e => match e with | Except.ok i => i | _ => 0) h
      omega
    · simp at h
  · rw [resolveIdx] at h
    rcases hf : holdings.findIdx?
        (fun hh => lowerStr hh.symbol = lowerStr (stripStr sym) ||
          lowerStr hh.name = lowerStr (stripStr sym)) with _ | i
    · rw [hf] at h
      simp at h
    · rw [hf] at h
      have hi : i = idx := by simpa using h
      subst hi
      exact (List.findIdx?_eq_some_iff_findIdx_eq.mp hf).1

/-- Setting an index to the element already stored there leaves the list
unchanged. -/
theorem set_of_getElem? {α : Type} (l : List α) (i : Nat) (a : α)
    (h : l[i]? = some a) : l.set i a = l := by
  induction l generalizing i with
  | nil => simp at h
  | cons x xs ih =>
    cases i with
    | zero =>
      simp only [List.getElem?_cons_zero, Option.some.injEq] at h
      simp [h]
    | succ n =>
      simp only [List.getElem?_cons_succ] at h
      simp [ih n h]

/-- C3: an adjust of an existing holding with at most one operation flag is
rejected with the ledger completely unchanged and nothing saved when the
computed quantity is negative, and otherwise stores the computed quantity
with a refreshed timestamp (all other holdings untouched) and saves. -/
theorem crypto_adjust_nonneg (p : Portfolio) (symbol : Option String)
    (set_qty add_qty sub_qty : Option ℚ) (promptChoice : Int)
    (promptOp : AdjustOp) (promptAmount : ℚ) (now : Nat)
    (idx : Nat) (holding : CryptoHolding)
    (hres : resolveIdx p.crypto symbol promptChoice = Except.ok idx)
    (hget : p.crypto[idx]? = some holding)
    (hops : opsCount set_qty add_qty sub_qty ≤ 1) :
    (computeNewQty holding.quantity set_qty add_qty sub_qty promptOp promptAmount < 0 →
      crypto_adjust p symbol set_qty add_qty sub_qty promptChoice promptOp promptAmount now
        = ⟨p, false, AdjustResult.negative⟩) ∧
    (0 ≤ computeNewQty holding.quantity set_qty add_qty sub_qty promptOp promptAmount →
      crypto_adjust p symbol set_qty add_qty sub_qty promptChoice promptOp promptAmount now
        = ⟨adjustedPortfolio p idx holding
              (computeNewQty holding.quantity set_qty add_qty sub_qty promptOp promptAmount)
              now,
            true, AdjustResult.ok⟩) := by
  have hlen : idx < p.crypto.length :=
    resolveIdx_lt_length p.crypto symbol promptChoice idx hres
  have hne : p.crypto.isEmpty = false := by
    cases hc : p.crypto with
    | nil => rw [hc] at hlen; simp at hlen
    | cons a t => simp [hc]
  constructor
  · intro hneg
    simp only [crypto_adjust, hne, Bool.false_eq_true, if_false, hres, hget]
    rw [if_neg (by omega), if_pos hneg]
  · intro hpos
    simp only [crypto_adjust, hne, Bool.false_eq_true, if_false, hres, hget]
    rw [if_neg (by omega), if_neg (not_lt.mpr hpos)]

/-- Witness for C3 at a one-holding ledger: subtracting 2 from quantity 1
computes -1, so the operation is rejected and the ledger is unchanged. -/
theorem crypto_adjust_nonneg_witness :
    (resolveIdx adjustDemoPortfolio.crypto (some "bitcoin") 0 = Except.ok 0 ∧
      adjustDemoPortfolio.crypto[0]? = some demoHolding ∧
      opsCount none none (some 2) ≤ 1) ∧
    ((computeNewQty demoHolding.quantity none none (some 2) AdjustOp.add 0 < 0 →
        crypto_adjust adjustDemoPortfolio (some "bitcoin") none none (some 2) 0
            AdjustOp.add 0 5
          = ⟨adjustDemoPortfolio, false, AdjustResult.negative⟩) ∧
      (0 ≤ computeNewQty demoHolding.quantity none none (some 2) AdjustOp.add 0 →
        crypto_adjust adjustDemoPortfolio (some "bitcoin") none none (some 2) 0
            AdjustOp.add 0 5
          = ⟨adjustedPortfolio adjustDemoPortfolio 0 demoHolding
                (computeNewQty demoHolding.quantity none none (some 2) AdjustOp.add 0) 5,
              true, AdjustResult.ok⟩)) :=
  ⟨⟨rfl, rfl, by decide⟩,
    crypto_adjust_nonneg adjustDemoPortfolio (some "bitcoin") none none (some 2) 0
      AdjustOp.add 0 5 0 demoHolding rfl rfl (by decide)⟩

/-- C4 counterexample: on an empty ledger, supplying `--set` and
`--subtract` together ends in the "no holdings" message, not the
conflicting-flags contract-violation report (though nothing is mutated). -/
theorem conflicting_flags_counterexample :
    opsCount (some 5) none (some 10) > 1 ∧
      (crypto_adjust emptyPortfolio (some "bitcoin") (some 5) none (some 10) 0
          AdjustOp.add 0 0).result ≠ AdjustResult.conflict ∧
      (crypto_adjust emptyPortfolio (some "bitcoin") (some 5) none (some 10) 0
          AdjustOp.add 0 0).result = AdjustResult.noHoldings := by
  refine ⟨by decide, by decide, rfl⟩

/-- C4 amended: supplying more than one of the three operation options never
mutates the ledger and never saves; the conflict report is issued whenever
the target holding actually resolves (the earlier no-holdings or
resolution-failure messages take priority otherwise). -/
theorem conflicting_flags_never_mutate (p : Portfolio) (symbol : Option String)
    (set_qty add_qty sub_qty : Option ℚ) (promptChoice : Int) (promptOp : AdjustOp)
    (promptAmount : ℚ) (now : Nat)
    (hops : opsCount set_qty add_qty sub_qty > 1) :
    (crypto_adjust p symbol set_qty add_qty sub_qty promptChoice promptOp promptAmount
        now).portfolio = p ∧
    (crypto_adjust p symbol set_qty add_qty sub_qty promptChoice promptOp promptAmount
        now).saved = false ∧
    (∀ idx, resolveIdx p.crypto symbol promptChoice = Except.ok idx →
      (crypto_adjust p symbol set_qty add_qty sub_qty promptChoice promptOp promptAmount
          now).result = AdjustResult.conflict) := by
  cases hemp : p.crypto.isEmpty with
  | true =>
    refine ⟨by simp [crypto_adjust, hemp], by simp [crypto_adjust, hemp], ?_⟩
    intro idx hres
    have hlen := resolveIdx_lt_length p.crypto symbol promptChoice idx hres
    rw [List.isEmpty_iff] at hemp
    rw [hemp] at hlen
    simp at hlen
  | false =>
    rcases hres' : resolveIdx p.crypto symbol promptChoice with e | i
    · refine ⟨by simp [crypto_adjust, hemp, hres'], by simp [crypto_adjust, hemp, hres'], ?_⟩
      intro idx hres
      simp [hres'] at hres
    · have hlen := resolveIdx_lt_length p.crypto symbol promptChoice i hres'
      have hget : p.crypto[i]? = some (p.crypto[i]) := List.getElem?_eq_getElem hlen
      refine ⟨?_, ?_, ?_⟩ <;>
        simp [crypto_adjust, hemp, hres', hget, if_pos hops]

/-- Witness for C4 amended: `--set 5 --subtract 10` on the demo ledger. -/
theorem conflicting_flags_never_mutate_witness :
    opsCount (some 5) none (some 10) > 1 ∧
    ((crypto_adjust adjustDemoPortfolio (some "bitcoin") (some 5) none (some 10) 0
        AdjustOp.add 0 7).portfolio = adjustDemoPortfolio ∧
      (crypto_adjust adjustDemoPortfolio (some "bitcoin") (some 5) none (some 10) 0
        AdjustOp.add 0 7).saved = false ∧
      (∀ idx, resolveIdx adjustDemoPortfolio.crypto (some "bitcoin") 0 = Except.ok idx →
        (crypto_adjust adjustDemoPortfolio (some "bitcoin") (some 5) none (some 10) 0
          AdjustOp.add 0 7).result = AdjustResult.conflict)) :=
  ⟨by decide,
    conflicting_flags_never_mutate adjustDemoPortfolio (some "bitcoin") (some 5) none
      (some 10) 0 AdjustOp.add 0 7 (by decide)⟩

/-- Witness for C2 amended at the Scenario B ledger (2 BTC at 50000, cash 1000). -/
theorem allocation_law_witness :
    ((0:ℚ) ≤ 0 ∧ 0 ≤ cash_value scenarioBPortfolio ∧ 0 ≤ crypto_value scenarioBPortfolio ∧
      0 ≤ hard_assets_value scenarioBPortfolio) ∧
    ((0 < total_value scenarioBPortfolio 0 →
        (allocationFractions scenarioBPortfolio 1 0).sum = 1) ∧
      (total_value scenarioBPortfolio 0 = 0 → breakdown scenarioBPortfolio 1 0 = []) ∧
      (∀ r ∈ breakdown scenarioBPortfolio 1 0, 0 < r.value)) := by
  refine ⟨⟨le_refl 0, ?_, ?_, ?_⟩, ?_⟩
  · norm_num [cash_value, scenarioBPortfolio]
  · norm_num [crypto_value, scenarioBPortfolio]
  · norm_num [hard_assets_value, metals_value, other_value, scenarioBPortfolio]
  · exact allocation_law scenarioBPortfolio 1 0 (le_refl 0)
      (by norm_num [cash_value, scenarioBPortfolio])
      (by norm_num [crypto_value, scenarioBPortfolio])
      (by norm_num [hard_assets_value, metals_value, other_value, scenarioBPortfolio])

/-- Replacing the holding at a valid index by its quantity/timestamp update
does not change the stored identifiers. -/
theorem map_symbol_set (l : List CryptoHolding) (i : Nat) (hi : i < l.length)
    (nq : ℚ) (t : Nat) :
    (l.set i (updatedHolding l[i] nq t)).map (fun h => h.symbol)
      = l.map (fun h => h.symbol) := by
  rw [List.map_set]
  apply set_of_getElem?
  simp [List.getElem?_eq_getElem hi, updatedHolding]

/-- `crypto_adjust` never changes the stored identifiers. -/
theorem crypto_adjust_symbols (p : Portfolio) (symbol : Option String)
    (set_qty add_qty sub_qty : Option ℚ) (promptChoice : Int) (promptOp : AdjustOp)
    (promptAmount : ℚ) (now : Nat) :
    cryptoSymbols (crypto_adjust p symbol set_qty add_qty sub_qty promptChoice promptOp
        promptAmount now).portfolio = cryptoSymbols p := by
  cases hemp : p.crypto.isEmpty with
  | true => simp [crypto_adjust, hemp]
  | false =>
    rcases hres : resolveIdx p.crypto symbol promptChoice with e | i
    · simp [crypto_adjust, hemp, hres]
    · have hlen := resolveIdx_lt_length p.crypto symbol promptChoice i hres
      have hget : p.crypto[i]? = some (p.crypto[i]) := List.getElem?_eq_getElem hlen
      by_cases hops : opsCount set_qty add_qty sub_qty > 1
      · simp [crypto_adjust, hemp, hres, hget, hops]
      · by_cases hneg : computeNewQty (p.crypto[i]).quantity set_qty add_qty sub_qty
            promptOp promptAmount < 0
        · simp [crypto_adjust, hemp, hres, hget, hops, hneg]
        · simp only [crypto_adjust, hemp, Bool.false_eq_true, if_false, hres, hget,
            if_neg hops, if_neg hneg, cryptoSymbols, adjustedPortfolio]
          exact map_symbol_set p.crypto i hlen _ now

/-- `crypto_remove` only ever deletes a holding, so the stored identifiers
of the result form a sublist of the previous ones. -/
theorem crypto_remove_symbols_sublist (p : Portfolio) (c : Int) :
    List.Sublist (cryptoSymbols (crypto_remove p c)) (cryptoSymbols p) := by
  unfold crypto_remove cryptoSymbols
  split
  · exact List.Sublist.refl _
  · dsimp only
    by_cases hc : 0 ≤ c - 1 ∧ c - 1 < (p.crypto.length : ℤ)
    · rw [if_pos hc]
      exact (List.eraseIdx_sublist _ _).map _
    · rw [if_neg hc]

/-- Generalized invariant for C6: starting from a ledger whose identifiers
are distinct and disjoint from the identifiers still to be added, any event
sequence whose resolved add identifiers are pairwise distinct keeps the
stored identifiers distinct. -/
theorem applyEvents_symbols_nodup (evs : List CryptoEvent) :
    ∀ p : Portfolio, (cryptoSymbols p).Nodup →
      (∀ s ∈ cryptoSymbols p, s ∉ addedSymbols evs) →
      (addedSymbols evs).Pairwise (fun a b => a ≠ b) →
      (cryptoSymbols (applyEvents p evs)).Nodup := by
  induction evs with
  | nil => intro p h _ _; simpa [applyEvents] using h
  | cons e evs ih =>
    intro p hnd hmem hpw
    have hstep : applyEvents p (e :: evs) = applyEvents (applyEvent p e) evs := rfl
    rw [hstep]
    cases e with
    | addEvent sr q ac pr now =>
      rcases sr with _ | ⟨cid, cname⟩
      · apply ih
        · simpa [applyEvent, crypto_add] using hnd
        · intro s hs
          exact hmem s (by simpa [applyEvent, crypto_add] using hs)
        · exact hpw
      · have hsym : cryptoSymbols
            (applyEvent p (CryptoEvent.addEvent (some (cid, cname)) q ac pr now))
            = cryptoSymbols p ++ [cid] := by
          simp [applyEvent, crypto_add, cryptoSymbols]
        have haddsym : addedSymbols (CryptoEvent.addEvent (some (cid, cname)) q ac pr now :: evs)
            = cid :: addedSymbols evs := rfl
        rw [haddsym] at hmem hpw
        have hcid : cid ∉ cryptoSymbols p :=
          fun hc => hmem cid hc (List.mem_cons_self _ _)
        apply ih
        · rw [hsym]
          refine List.nodup_append.mpr ⟨hnd, List.nodup_singleton _, ?_⟩
          intro a ha hb
          rw [List.mem_singleton] at hb
          subst hb
          exact hcid ha
        · intro s hs
          rw [hsym] at hs
          rcases List.mem_append.mp hs with h | h
          · exact fun hc => hmem s h (List.mem_cons_of_mem _ hc)
          · rw [List.mem_singleton] at h
            subst h
            exact fun hc => (List.pairwise_cons.mp hpw).1 _ hc rfl
        · exact (List.pairwise_cons.mp hpw).2
    | removeEvent c =>
      have hsub := crypto_remove_symbols_sublist p c
      apply ih
      · exact hsub.nodup hnd
      · intro s hs
        exact hmem s (hsub.subset hs)
      · exact hpw
    | adjustEvent sym sq aq bq pc po pa now =>
      have hsym := crypto_adjust_symbols p sym sq aq bq pc po pa now
      apply ih
      · rw [show applyEvent p (CryptoEvent.adjustEvent sym sq aq bq pc po pa now)
            = (crypto_adjust p sym sq aq bq pc po pa now).portfolio from rfl, hsym]
        exact hnd
      · intro s hs
        rw [show applyEvent p (CryptoEvent.adjustEvent sym sq aq bq pc po pa now)
            = (crypto_adjust p sym sq aq bq pc po pa now).portfolio from rfl, hsym] at hs
        exact hmem s hs
      · exact hpw

/-- C6 counterexample: `crypto add` appends without a uniqueness check, so
adding the same resolved identifier twice from the empty ledger yields two
holdings with identifier "bitcoin". -/
theorem crypto_symbol_unique_counterexample :
    cryptoSymbols (applyEvents emptyPortfolio dupAddEvents) = ["bitcoin", "bitcoin"] ∧
      ¬ (cryptoSymbols (applyEvents emptyPortfolio dupAddEvents)).Nodup :=
  ⟨rfl, by decide⟩

/-- C6 amended: after any sequence of add, remove and adjust mutations from
the empty ledger in which the identifiers resolved by the add operations are
pairwise distinct, no two crypto holdings share an identifier. -/
theorem crypto_symbol_unique (evs : List CryptoEvent)
    (h : (addedSymbols evs).Pairwise (fun a b => a ≠ b)) :
    (cryptoSymbols (applyEvents emptyPortfolio evs)).Nodup :=
  applyEvents_symbols_nodup evs emptyPortfolio (by simp [cryptoSymbols, emptyPortfolio])
    (by intro s hs; simp [cryptoSymbols, emptyPortfolio] at hs) h

/-- Witness for C6 amended: adding bitcoin then ethereum keeps identifiers
distinct. -/
theorem crypto_symbol_unique_witness :
    (addedSymbols distinctAddEvents).Pairwise (fun a b => a ≠ b) ∧
      (cryptoSymbols (applyEvents emptyPortfolio distinctAddEvents)).Nodup :=
  ⟨by decide, crypto_symbol_unique distinctAddEvents (by decide)⟩

/-- `updateMetal` returns the asset untouched and uncounted when the tag is
not a metal tag or the fetched price is falsy. -/
theorem updateMetal_of_skip (fetch : String → Option ℚ) (now : Nat) (asset : HardAsset)
    (h : truthyPrice (fetch asset.type) = false ∨ asset.type ∉ metalTypes) :
    updateMetal fetch now asset = (asset, 0) := by
  unfold updateMetal
  by_cases hm : asset.type ∈ metalTypes
  · rw [if_pos hm]
    have ht : truthyPrice (fetch asset.type) = false := by
      rcases h with h | h
      · exact h
      · exact absurd hm h
    rcases hf : fetch asset.type with _ | pr
    · rfl
    · rw [hf] at ht
      unfold truthyPrice at ht
      by_cases h0 : pr = 0
      · simp [h0]
      · simp [h0] at ht
  · rw [if_neg hm]

/-- `updateMetal` stores the new price with a refreshed timestamp and counts
the asset when the tag is a metal tag and the fetched price is nonzero. -/
theorem updateMetal_of_success (fetch : String → Option ℚ) (now : Nat)
    (asset : HardAsset) (pr : ℚ) (hf : fetch asset.type = some pr) (h0 : pr ≠ 0)
    (hm : asset.type ∈ metalTypes) :
    updateMetal fetch now asset
      = ({ asset with current_spot_price := pr, last_updated := now }, 1) := by
  unfold updateMetal
  rw [if_pos hm, hf]
  simp [h0]

/-- The updated count of a metals pass equals the number of metal-tagged
holdings with a truthy fetched price. -/
theorem sum_updateMetal_count (fetch : String → Option ℚ) (now : Nat) :
    ∀ l : List HardAsset,
      ((l.map (updateMetal fetch now)).map Prod.snd).sum
        = l.countP (fun a => decide (a.type ∈ metalTypes) && truthyPrice (fetch a.type)) := by
  intro l
  induction l with
  | nil => rfl
  | cons a t ih =>
    simp only [List.map_cons, List.sum_cons, List.countP_cons, ih]
    by_cases hm : a.type ∈ metalTypes
    · rcases hf : fetch a.type with _ | pr
      · rw [updateMetal_of_skip fetch now a (Or.inl (by rw [hf]; rfl))]
        simp [hm, hf, truthyPrice]
      · by_cases h0 : pr = 0
        · rw [updateMetal_of_skip fetch now a (Or.inl (by rw [hf]; simp [truthyPrice, h0]))]
          simp [hm, hf, truthyPrice, h0]
        · rw [updateMetal_of_success fetch now a pr hf h0 hm]
          simp [hm, hf, truthyPrice, h0]
          omega
    · rw [updateMetal_of_skip fetch now a (Or.inr hm)]
      simp [hm]

/-- C8 counterexample: a fetch that succeeds with price 0 is treated by the
`if new_price:` truthiness test exactly like a failure — the gold holding
keeps its previous price and timestamp and is not counted as updated. -/
theorem metals_update_counterexample :
    (fun _ : String => some (0:ℚ)) "gold" = some 0 ∧
      (assets_update goldPortfolio (fun _ => some 0) 9).portfolio = goldPortfolio ∧
      (assets_update goldPortfolio (fun _ => some 0) 9).updated_count = 0 :=
  ⟨rfl, by decide, rfl⟩

/-- C8 amended: a metals refresh pass never touches the "other", crypto or
cash sections; the updated count is the number of metal-tagged holdings
whose fetched price is truthy (nonzero); a holding whose fetch fails or
returns the falsy price 0 is byte-identical before and after the pass; and a
holding whose fetch returns a nonzero price gets that price with a refreshed
timestamp. -/
theorem metals_update_spec (p : Portfolio) (fetch : String → Option ℚ) (now : Nat) :
    (assets_update p fetch now).portfolio.other = p.other ∧
    (assets_update p fetch now).portfolio.crypto = p.crypto ∧
    (assets_update p fetch now).portfolio.cash = p.cash ∧
    (assets_update p fetch now).updated_count
      = p.precious_metals.countP
          (fun a => decide (a.type ∈ metalTypes) && truthyPrice (fetch a.type)) ∧
    ∀ (i : Nat) (asset : HardAsset), p.precious_metals[i]? = some asset →
      ((truthyPrice (fetch asset.type) = false ∨ asset.type ∉ metalTypes) →
        (assets_update p fetch now).portfolio.precious_metals[i]? = some asset) ∧
      (∀ pr, fetch asset.type = some pr → pr ≠ 0 → asset.type ∈ metalTypes →
        (assets_update p fetch now).portfolio.precious_metals[i]?
          = some ({ asset with current_spot_price := pr, last_updated := now })) := by
  by_cases hemp : (p.precious_metals ++ p.other).isEmpty
  · have hmet : p.precious_metals = [] := by
      rw [List.isEmpty_iff, List.append_eq_nil] at hemp
      exact hemp.1
    refine ⟨by simp [assets_update, hemp], by simp [assets_update, hemp],
      by simp [assets_update, hemp], ?_, ?_⟩
    · have h4 : (assets_update p fetch now).updated_count = 0 := by
        simp [assets_update, hemp]
      rw [h4, hmet]
      rfl
    · intro i asset hi
      rw [hmet] at hi
      simp at hi
  · have hne : (p.precious_metals ++ p.other).isEmpty = false := by
      simpa using hemp
    refine ⟨by simp [assets_update, hne], by simp [assets_update, hne],
      by simp [assets_update, hne], ?_, ?_⟩
    · simp only [assets_update, hne, Bool.false_eq_true, if_false]
      exact sum_updateMetal_count fetch now p.precious_metals
    · intro i asset hi
      have hmap : (assets_update p fetch now).portfolio.precious_metals
          = (p.precious_metals.map (updateMetal fetch now)).map Prod.fst := by
        simp [assets_update, hne]
      constructor
      · intro hskip
        rw [hmap, List.getElem?_map, List.getElem?_map, hi]
        simp [updateMetal_of_skip fetch now asset hskip]
      · intro pr hf h0 hm
        rw [hmap, List.getElem?_map, List.getElem?_map, hi]
        simp [updateMetal_of_success fetch now asset pr hf h0 hm]

/-- Witness for C8 amended: a nonzero fetched gold price updates the holding
in place with the refreshed timestamp. -/
theorem metals_update_spec_witness :
    goldPortfolio.precious_metals[0]? = some goldAsset ∧
      (fun _ : String => some (2000:ℚ)) goldAsset.type = some 2000 ∧
      (2000:ℚ) ≠ 0 ∧ goldAsset.type ∈ metalTypes ∧
      (assets_update goldPortfolio (fun _ => some 2000) 9).portfolio.precious_metals[0]?
        = some ({ goldAsset with current_spot_price := 2000, last_updated := 9 }) := by
  refine ⟨rfl, rfl, by norm_num, by decide, ?_⟩
  exact (((metals_update_spec goldPortfolio (fun _ => some 2000) 9).2.2.2.2) 0 goldAsset
    rfl).2 2000 rfl (by norm_num) (by decide)

/-- C9 counterexample: a holding with a recorded positive average cost but
quantity 0 has cost basis 0, so its P&L cell is "N/A" even though the claim
promises a numeric P&L whenever `average_cost > 0`. -/
theorem pnl_counterexample :
    zeroQtyHolding.average_cost > 0 ∧ cryptoPnl zeroQtyHolding = none := by
  constructor
  · norm_num [zeroQtyHolding]
  · have hz : cryptoCostBasis zeroQtyHolding = 0 := by
      norm_num [cryptoCostBasis, zeroQtyHolding]
    rw [cryptoPnl, hz]
    simp

/-- C9 amended: in the detailed view the P&L is `value - quantity*average_cost`
exactly when the cost basis `quantity*average_cost` is strictly positive, and
is "N/A" whenever the cost basis is non-positive — in particular whenever
`average_cost == 0`, whatever the quantity (for crypto and hard-asset rows
alike). -/
theorem pnl_suppression (h : CryptoHolding) (a : HardAsset) :
    (cryptoCostBasis h > 0 →
      cryptoPnl h = some (cryptoHoldingValue h - cryptoCostBasis h)) ∧
    (cryptoCostBasis h ≤ 0 → cryptoPnl h = none) ∧
    (h.average_cost = 0 → cryptoPnl h = none) ∧
    (assetCostBasis a > 0 → assetPnl a = some (assetDetailedValue a - assetCostBasis a)) ∧
    (assetCostBasis a ≤ 0 → assetPnl a = none) ∧
    (a.average_cost = 0 → assetPnl a = none) := by
  refine ⟨?_, ?_, ?_, ?_, ?_, ?_⟩
  · intro hp
    simp [cryptoPnl, hp]
  · intro hl
    simp only [cryptoPnl, if_neg (not_lt.mpr hl)]
  · intro h0
    have hz : cryptoCostBasis h = 0 := by rw [cryptoCostBasis, h0, mul_zero]
    rw [cryptoPnl, hz]
    simp
  · intro hp
    simp [assetPnl, hp]
  · intro hl
    simp only [assetPnl, if_neg (not_lt.mpr hl)]
  · intro h0
    have hz : assetCostBasis a = 0 := by rw [assetCostBasis, h0, mul_zero]
    rw [assetPnl, hz]
    simp

/-- Witness for C9 amended: a holding with unrecorded (zero) average cost
gets the "N/A" P&L cell. -/
theorem pnl_suppression_witness :
    demoHolding.average_cost = 0 ∧ cryptoPnl demoHolding = none :=
  ⟨rfl, (pnl_suppression demoHolding goldAsset).2.2.1 rfl⟩

/-- C10: the detailed view values every hard asset — including "other"
assets — as `convert_to_ounces(quantity, unit) * current_spot_price`; for a
gram-denominated asset this is `(quantity / 31.1034768) * spot`, which
differs from the `quantity * spot` contribution the same asset makes to the
aggregate other-category subtotal whenever quantity and spot are nonzero. -/
theorem other_asset_detailed_value (a : HardAsset) :
    assetDetailedValue a = convert_to_ounces a.quantity a.unit * a.current_spot_price ∧
    (lowerStr a.unit ∈ ["g", "gram", "grams"] →
      assetDetailedValue a = a.quantity / (311034768 / 10000000) * a.current_spot_price ∧
      (a.quantity ≠ 0 → a.current_spot_price ≠ 0 →
        assetDetailedValue a ≠ otherContribution a)) := by
  refine ⟨rfl, fun hg => ⟨?_, ?_⟩⟩
  · rw [assetDetailedValue, convert_to_ounces, if_pos hg, gramsPerTroyOunce]
  · intro hq hs heq
    rw [assetDetailedValue, convert_to_ounces, if_pos hg, otherContribution] at heq
    have hc0 : gramsPerTroyOunce ≠ 0 := by norm_num [gramsPerTroyOunce]
    have hc1 : gramsPerTroyOunce ≠ 1 := by norm_num [gramsPerTroyOunce]
    have hqs : a.quantity * a.current_spot_price ≠ 0 := mul_ne_zero hq hs
    rw [div_mul_eq_mul_div, div_eq_iff hc0] at heq
    have h3 : a.quantity * a.current_spot_price * 1
        = a.quantity * a.current_spot_price * gramsPerTroyOunce := by
      rw [mul_one]
      exact heq
    exact hc1 (mul_left_cancel₀ hqs h3).symm

/-- Witness for C10 at the Scenario C asset (10 g of copper at spot 2000). -/
theorem other_asset_detailed_value_witness :
    lowerStr copperAsset.unit ∈ ["g", "gram", "grams"] ∧
      copperAsset.quantity ≠ 0 ∧ copperAsset.current_spot_price ≠ 0 ∧
      assetDetailedValue copperAsset ≠ otherContribution copperAsset := by
  refine ⟨by decide, by norm_num [copperAsset], by norm_num [copperAsset], ?_⟩
  exact ((other_asset_detailed_value copperAsset).2 (by decide)).2
    (by norm_num [copperAsset]) (by norm_num [copperAsset])

/-- C7 counterexample: when login succeeds but the positions fetch raises,
the `except` on the combined `login`-and-fetch block returns the failure
outcome before the `try/finally` around the loop is entered, so no logout is
attempted. -/
theorem logout_counterexample :
    fetchFailWorld.loginOk = true ∧
      (get_portfolio_data fetchFailWorld none none none).error
        = some "login_or_fetch_failed" ∧
      (get_portfolio_data fetchFailWorld none none none).logoutAttempted = false :=
  ⟨rfl, rfl, rfl⟩

/-- C7 amended: when login and the positions fetch both succeed, logout is
attempted before the adapter returns — including when individual positions
fail to normalize — and the returned outcome never depends on whether the
logout itself succeeds (its failure is swallowed).  When the fetch raises
after a successful login, the failure outcome is returned without a logout
attempt. -/
theorem logout_spec (w : RhWorld) (cu cp ca : Option String)
    (hav : w.available = true)
    (hu : truthyCred (mergeCred cu w.envUsername) = true)
    (hp : truthyCred (mergeCred cp w.envPassword) = true)
    (ha : truthyCred (mergeCred ca w.envAccount) = true)
    (hlogin : w.loginOk = true) (hfetch : w.fetchOk = true) :
    (get_portfolio_data w cu cp ca).logoutAttempted = true ∧
    (get_portfolio_data w cu cp ca).error = none ∧
    ∀ b₁ b₂ : Bool, get_portfolio_data { w with logoutOk := b₁ } cu cp ca
      = get_portfolio_data { w with logoutOk := b₂ } cu cp ca := by
  refine ⟨?_, ?_, fun b₁ b₂ => rfl⟩
  · simp [get_portfolio_data, hav, hu, hp, ha, hlogin, hfetch]
  · simp [get_portfolio_data, hav, hu, hp, ha, hlogin, hfetch]

/-- Witness for C7 amended: login and fetch succeed, one raw position is
malformed, the logout itself fails; logout is still attempted and the
outcome carries no error. -/
theorem logout_spec_witness :
    (okWorld.available = true ∧
      truthyCred (mergeCred none okWorld.envUsername) = true ∧
      truthyCred (mergeCred none okWorld.envPassword) = true ∧
      truthyCred (mergeCred none okWorld.envAccount) = true ∧
      okWorld.loginOk = true ∧ okWorld.fetchOk = true) ∧
    ((get_portfolio_data okWorld none none none).logoutAttempted = true ∧
      (get_portfolio_data okWorld none none none).error = none ∧
      ∀ b₁ b₂ : Bool, get_portfolio_data { okWorld with logoutOk := b₁ } none none none
        = get_portfolio_data { okWorld with logoutOk := b₂ } none none none) :=
  ⟨⟨rfl, rfl, rfl, rfl, rfl, rfl⟩,
    logout_spec okWorld none none none rfl rfl rfl rfl rfl rfl⟩

end PortfolioTracker
